import Mathlib

/-!
# Verification of the cosmic-comp fps debug overlay (`src/debug.rs`)

Shallow embedding of the `fps_ui` composer from `src/debug.rs`.

Conventions of the embedding:

* `f64` duration values (`Duration::as_secs_f64`) are modelled as exact
  rationals (`ℚ`).  The IEEE-754 special cases that the source relies on are
  made explicit:
  - Rust's `f64::round` rounds half away from zero: `rustRound`.
  - Rust's saturating float-to-int cast `as u8` clamps to `[0, 255]` and
    maps NaN to `0`: `u8sat` (on finite values), and the `maxD = minD`
    branch of `normalize` (where the real code divides by `0.0`, producing
    `+∞` / `-∞` / NaN, which the cast then saturates to `255` / `0` / `0`).
* The `egui` drawing callback is modelled by the list of drawing commands it
  issues (`UiItem`); the GPU backend, which only rasterizes those commands,
  is out of scope (it is an opaque collaborator in the source as well).
* The `Fps` sample store lives in `crate::state`, outside the provided
  sources; the aggregate accessors that `fps_ui` calls on it are modelled
  from the spec (each such definition is marked `Modelled from the spec:`).
  Its `frames` field, which `fps_ui` iterates directly, is a chronological
  `List Frame`.
-/

namespace CosmicComp

/-- Rust `f64::round`: round to nearest, ties away from zero (on finite
values), as an exact operation on `ℚ`. -/
def rustRound (q : ℚ) : ℤ :=
  if 0 ≤ q then ⌊q + 1/2⌋ else ⌈q - 1/2⌉

/-- Rust saturating cast `as u8` applied to an already-rounded finite value:
clamp into `[0, 255]`. -/
def u8sat (z : ℤ) : ℕ :=
  if z < 0 then 0 else if 255 < z then 255 else z.toNat

/-- The normalization applied to every timing value in `fps_ui`
(`src/debug.rs` lines 66-73):

`((val - min_disp) / (max_disp - min_disp) * 255.0).round() as u8`.

When `max_disp = min_disp` the `f64` division is by `0.0`; the quotient is
`+∞` for `val > min_disp` (the cast saturates it to 255), `-∞` for
`val < min_disp` (saturates to 0), and NaN for `val = min_disp` (the cast
yields 0).  The first branch below makes those IEEE-754 outcomes explicit;
otherwise the arithmetic is the exact rational counterpart of the finite
float computation. -/
def normalize (v minD maxD : ℚ) : ℕ :=
  if maxD = minD then (if minD < v then 255 else 0)
  else u8sat (rustRound ((v - minD) / (maxD - minD) * 255))

theorem ceil_as_floor (q : ℚ) : ⌈q⌉ = -⌊-q⌋ := by
  rw [Int.floor_neg, neg_neg]

theorem u8sat_le_255 (z : ℤ) : u8sat z ≤ 255 := by
  unfold u8sat; split_ifs <;> omega

theorem u8sat_mono {a b : ℤ} (h : a ≤ b) : u8sat a ≤ u8sat b := by
  unfold u8sat; split_ifs <;> omega

theorem u8sat_of_nonpos {z : ℤ} (h : z ≤ 0) : u8sat z = 0 := by
  unfold u8sat; split_ifs <;> omega

theorem u8sat_of_ge_255 {z : ℤ} (h : 255 ≤ z) : u8sat z = 255 := by
  unfold u8sat; split_ifs <;> omega

theorem u8sat_of_mem {z : ℤ} (h0 : 0 ≤ z) (h255 : z ≤ 255) : (u8sat z : ℤ) = z := by
  unfold u8sat; split_ifs <;> omega

theorem rustRound_mono {a b : ℚ} (h : a ≤ b) : rustRound a ≤ rustRound b := by
  unfold rustRound
  split_ifs with ha hb hb
  · exact Int.floor_le_floor (by linarith)
  · linarith
  · calc ⌈a - 1/2⌉ ≤ (0 : ℤ) := Int.ceil_le.mpr (by push_cast; linarith)
      _ ≤ ⌊b + 1/2⌋ := Int.le_floor.mpr (by push_cast; linarith)
  · exact Int.ceil_le_ceil (by linarith)

theorem rustRound_nonneg {q : ℚ} (h : 0 ≤ q) : 0 ≤ rustRound q := by
  unfold rustRound
  rw [if_pos h]
  exact Int.le_floor.mpr (by push_cast; linarith)

theorem rustRound_nonpos {q : ℚ} (h : q < 0) : rustRound q ≤ 0 := by
  unfold rustRound
  rw [if_neg (by linarith)]
  exact Int.ceil_le.mpr (by push_cast; linarith)

theorem rustRound_le_of_le {q : ℚ} {z : ℤ} (h : q ≤ z) : rustRound q ≤ z := by
  unfold rustRound
  split_ifs with h0
  · have hlt : ⌊q + 1/2⌋ < z + 1 := by
      rw [Int.floor_lt]
      push_cast
      linarith
    omega
  · exact Int.ceil_le.mpr (by linarith)

theorem rustRound_ge_of_ge {q : ℚ} {z : ℤ} (h : (z : ℚ) ≤ q) : z ≤ rustRound q := by
  unfold rustRound
  split_ifs with h0
  · exact Int.le_floor.mpr (by linarith)
  · have hlt : z - 1 < ⌈q - 1/2⌉ := by
      rw [Int.lt_ceil]
      push_cast
      linarith
    omega

theorem normalize_le_255 (v minD maxD : ℚ) : normalize v minD maxD ≤ 255 := by
  unfold normalize
  split_ifs <;> first | omega | exact u8sat_le_255 _

theorem normalize_mono_of_lt_max {a b minD maxD : ℚ} (hab : a ≤ b) (h : minD < maxD) :
    normalize a minD maxD ≤ normalize b minD maxD := by
  unfold normalize
  rw [if_neg (by linarith), if_neg (by linarith)]
  refine u8sat_mono (rustRound_mono ?_)
  have hpos : (0 : ℚ) < maxD - minD := by linarith
  gcongr

/-! ## Data model: frames, the sample store, and the selected window -/

/-- One frame-timing sample (`Fps::Frame` in `crate::state`; the fields and
their uses are exactly the ones `fps_ui` reads).  Durations are seconds as
exact rationals (the composer immediately converts each `Duration` with
`as_secs_f64`). -/
structure Frame where
  duration_elements : ℚ
  duration_render : ℚ
  duration_screencopy : Option ℚ
  duration_displayed : ℚ
deriving DecidableEq

/-- The `Fps` sample store as `fps_ui` sees it: the chronological `frames`
sequence it iterates directly (`fps.frames.iter()`). -/
structure Fps where
  frames : List Frame
deriving DecidableEq

/-- Modelled from the spec: canonical per-frame total duration used by the
frametime aggregates of `Fps` (`crate::state`, not under `src/`): "based on
total per-frame duration, i.e., elements + render". -/
def frametime (f : Frame) : ℚ :=
  f.duration_elements + f.duration_render

/-- Modelled from the spec: `Fps::max_frametime` (`crate::state`, not under
`src/`): maximum frametime over the retained window, `0` as the defined
empty-window sentinel. -/
def max_frametime (fps : Fps) : ℚ :=
  ((fps.frames.map frametime).max?).getD 0

/-- Modelled from the spec: `Fps::min_frametime` (`crate::state`, not under
`src/`): minimum frametime over the retained window, `0` as the defined
empty-window sentinel. -/
def min_frametime (fps : Fps) : ℚ :=
  ((fps.frames.map frametime).min?).getD 0

/-- Modelled from the spec: `Fps::avg_frametime` (`crate::state`, not under
`src/`): average frametime over the retained window (`ℚ` division by the
window size; for the empty window this is division by zero, which is `0` in
`ℚ` — the defined sentinel). -/
def avg_frametime (fps : Fps) : ℚ :=
  (fps.frames.map frametime).sum / (fps.frames.length : ℚ)

/-- Modelled from the spec: `Fps::avg_fps` (`crate::state`, not under
`src/`): `avg_fps = 1 / avg_frametime`; for the empty window
`avg_frametime = 0` and `1 / 0 = 0` in `ℚ`, the defined sentinel (this is
the "no samples yet" case with `avg_fps = 0.0`). -/
def avg_fps (fps : Fps) : ℚ :=
  1 / avg_frametime fps

/-- Modelled from the spec: `Fps::max_time_to_display` (`crate::state`, not
under `src/`): maximum of `duration_displayed` over the retained window,
`0` as the defined empty-window sentinel. -/
def max_time_to_display (fps : Fps) : ℚ :=
  ((fps.frames.map Frame.duration_displayed).max?).getD 0

/-- Modelled from the spec: `Fps::min_time_to_display` (`crate::state`, not
under `src/`): minimum of `duration_displayed` over the retained window,
`0` as the defined empty-window sentinel. -/
def min_time_to_display (fps : Fps) : ℚ :=
  ((fps.frames.map Frame.duration_displayed).min?).getD 0

/-- Sample count to visualize (`src/debug.rs` line 45):
`let amount = avg_fps.round() as usize * 2;`.  The saturating `as usize`
cast maps negative values to `0` (`Int.toNat`); `usize` overflow is
idealized away (`ℕ`). -/
def amountOf (avg_fps : ℚ) : ℕ :=
  (rustRound avg_fps).toNat * 2

/-- The window selection of `fps_ui` (`src/debug.rs` lines 49-55), the
spec's `recent(n)`:
`fps.frames.iter().rev().take(amount).rev().enumerate()` — the last `n`
frames in chronological order, each paired with its zero-based position in
the selected window. -/
def recent (frames : List Frame) (n : ℕ) : List (ℕ × Frame) :=
  ((frames.reverse.take n).reverse).enum

/-! ## The bar series and the stacked chart -/

/-- `egui::Color32` (only RGB constants are used). -/
structure Color32 where
  r : ℕ
  g : ℕ
  b : ℕ
deriving DecidableEq

/-- `src/debug.rs` line 19. -/
def ELEMENTS_COLOR : Color32 := ⟨70, 198, 115⟩

/-- `src/debug.rs` line 20. -/
def RENDER_COLOR : Color32 := ⟨29, 114, 58⟩

/-- `src/debug.rs` line 21. -/
def SCREENCOPY_COLOR : Color32 := ⟨253, 178, 39⟩

/-- `src/debug.rs` line 22. -/
def DISPLAY_COLOR : Color32 := ⟨41, 184, 209⟩

/-- An `egui` plot `Bar`: argument (x-position), value, and fill color.
In the source both coordinates are `f64`; here the x-position is the sample
index and the value is the `u8` normalization result cast back up. -/
structure Bar where
  x : ℕ
  value : ℕ
  fill : Color32
deriving DecidableEq

/-- The screencopy timing value of a sample (`src/debug.rs` lines 59-63):
`frame.duration_screencopy.as_ref().map(|val| val.as_secs_f64()).unwrap_or(0.0)`. -/
def screencopyVal (frame : Frame) : ℚ :=
  (frame.duration_screencopy).getD 0

/-- The body of the per-sample closure (`src/debug.rs` lines 56-84): extract
the four timing values, normalize each, and emit the four bars at x = `i`.
The result is shaped `((elements, render), (screencopy, displayed))` as in
the source, ready for the double `unzip`. -/
def barRow (minD maxD : ℚ) (i : ℕ) (frame : Frame) : (Bar × Bar) × (Bar × Bar) :=
  let elements_val := frame.duration_elements
  let render_val := frame.duration_render
  let screencopy_val := screencopyVal frame
  let displayed_val := frame.duration_displayed
  ((⟨i, normalize elements_val minD maxD, ELEMENTS_COLOR⟩,
    ⟨i, normalize render_val minD maxD, RENDER_COLOR⟩),
   (⟨i, normalize screencopy_val minD maxD, SCREENCOPY_COLOR⟩,
    ⟨i, normalize displayed_val minD maxD, DISPLAY_COLOR⟩))

/-- The mapped (not yet unzipped) bar rows over the selected window. -/
def barRows (minD maxD : ℚ) (samples : List (ℕ × Frame)) :
    List ((Bar × Bar) × (Bar × Bar)) :=
  samples.map (fun p => barRow minD maxD p.1 p.2)

/-- `bars_elements` component of the double `unzip` (`src/debug.rs` line 46). -/
def bars_elements (minD maxD : ℚ) (samples : List (ℕ × Frame)) : List Bar :=
  (barRows minD maxD samples).map (fun r => r.1.1)

/-- `bars_render` component of the double `unzip`. -/
def bars_render (minD maxD : ℚ) (samples : List (ℕ × Frame)) : List Bar :=
  (barRows minD maxD samples).map (fun r => r.1.2)

/-- `bars_screencopy` component of the double `unzip`. -/
def bars_screencopy (minD maxD : ℚ) (samples : List (ℕ × Frame)) : List Bar :=
  (barRows minD maxD samples).map (fun r => r.2.1)

/-- `bars_displayed` component of the double `unzip`. -/
def bars_displayed (minD maxD : ℚ) (samples : List (ℕ × Frame)) : List Bar :=
  (barRows minD maxD samples).map (fun r => r.2.2)

/-- An `egui::plot::BarChart`: its bars and (via `stack_on`) the charts it
is stacked on top of. -/
inductive BarChartM where
  | mk (bars : List Bar) (stack_on : List BarChartM)

def BarChartM.bars : BarChartM → List Bar
  | .mk b _ => b

def BarChartM.stackedOn : BarChartM → List BarChartM
  | .mk _ s => s

/-- `let elements_chart = BarChart::new(bars_elements).vertical();`
(`src/debug.rs` line 114). -/
def elements_chart (bars_e : List Bar) : BarChartM :=
  .mk bars_e []

/-- `BarChart::new(bars_render).stack_on(&[&elements_chart])`
(`src/debug.rs` lines 115-117). -/
def render_chart (bars_e bars_r : List Bar) : BarChartM :=
  .mk bars_r [elements_chart bars_e]

/-- `BarChart::new(bars_screencopy).stack_on(&[&elements_chart, &render_chart])`
(`src/debug.rs` lines 118-120). -/
def screencopy_chart (bars_e bars_r bars_s : List Bar) : BarChartM :=
  .mk bars_s [elements_chart bars_e, render_chart bars_e bars_r]

/-- `BarChart::new(bars_displayed).stack_on(&[&elements_chart, &render_chart,
&screencopy_chart])` (`src/debug.rs` lines 121-123). -/
def display_chart (bars_e bars_r bars_s bars_d : List Bar) : BarChartM :=
  .mk bars_d
    [elements_chart bars_e, render_chart bars_e bars_r,
     screencopy_chart bars_e bars_r bars_s]

/-- Total value a bar list contributes at argument `x` (`egui` sums the
values of a chart's bars at the same argument when stacking). -/
def barsValueAt (bars : List Bar) (x : ℕ) : ℕ :=
  ((bars.filter (fun b => b.x == x)).map Bar.value).sum

def BarChartM.valueAt (c : BarChartM) (x : ℕ) : ℕ :=
  barsValueAt c.bars x

/-- The vertical offset `egui` gives a stacked chart's bar at argument `x`:
the summed values, at `x`, of the charts it was stacked on. -/
def BarChartM.baseAt : BarChartM → ℕ → ℕ
  | .mk _ s, x => (s.map (fun d => d.valueAt x)).sum

/-! ## The drawn overlay and the render call -/

/-- One drawing command issued by the `egui` closure of `fps_ui`
(`src/debug.rs` lines 88-140).  Each constructor carries the data the
corresponding widget displays; the text formatting applied to it
(`format!` patterns, 3- or 6-decimal precision, `RichText` styling) and the
purely presentational plot settings (legend, aspect ratio, y-range 0-300,
hidden x-labels) are opaque presentation details. -/
inductive UiItem where
  | versionLabel (version : String)
  | hashLabel (hash : String)
  | hintLabel
  | separator
  | gpuLabel (minor : ℕ)
  | fpsHeading (avg_fps : ℚ)
  | frameTimesLabel
  | avgLabel (avg : ℚ)
  | minLabel (mn : ℚ)
  | maxLabel (mx : ℚ)
  | plot (amount : ℕ) (charts : List BarChartM)

/-- `std::option_env!("GIT_HASH").and_then(|x| x.get(0..10))`
(`src/debug.rs` line 96): the first ten characters of the build hash, or
`none` when the hash is absent or shorter (Rust's `str::get` returns `None`
on an out-of-range slice; UTF-8 byte/char-boundary details are idealized
away, the hash being ASCII hex). -/
def gitHashShort (git_hash : Option String) : Option String :=
  git_hash.bind (fun x => if 10 ≤ x.length then some (x.take 10) else none)

/-- The drawing commands issued by the closure passed to
`fps.state.render` (`src/debug.rs` lines 88-140): version label, optional
build-hash label, then either the hint label (when the egui overlay is not
active) or the debug content (separator, optional GPU label, FPS heading,
frame-time labels and the stacked plot of the four charts, in the order the
source hands them to `plot_ui.bar_chart`). -/
def fpsUiItems (version : String) (git_hash : Option String) (egui_active : Bool)
    (gpu : Option ℕ) (mx mn avg avgFps : ℚ) (amount : ℕ)
    (bars_e bars_r bars_s bars_d : List Bar) : List UiItem :=
  [UiItem.versionLabel version]
    ++ (gitHashShort git_hash).toList.map UiItem.hashLabel
    ++ (if !egui_active then
          [UiItem.hintLabel]
        else
          [UiItem.separator]
            ++ gpu.toList.map UiItem.gpuLabel
            ++ [UiItem.fpsHeading avgFps, UiItem.frameTimesLabel,
                UiItem.avgLabel avg, UiItem.minLabel mn, UiItem.maxLabel mx,
                UiItem.plot amount
                  [elements_chart bars_e,
                   render_chart bars_e bars_r,
                   screencopy_chart bars_e bars_r bars_s,
                   display_chart bars_e bars_r bars_s bars_d]])

/-- The single call `fps_ui` makes to the opaque render backend
(`fps.state.render(closure, renderer, area, scale, 0.8, now)`,
`src/debug.rs` lines 87-147): the drawing commands of the closure plus the
positional arguments.  The backend's `Result` (a GPU error propagated
verbatim) is outside the embedded computation. -/
structure RenderCall where
  items : List UiItem
  area : (ℤ × ℤ) × (ℤ × ℤ)
  scale : ℚ
  opacity : ℚ
  timestamp : ℕ
deriving Inhabited

/-- The composer `fps_ui` (`src/debug.rs` lines 24-148).

Inputs mirror the source: the optional GPU node (its `minor()` number),
the compile-time version / optional git-hash strings (`env!` /
`option_env!`, modelled as explicit inputs), `state.egui.active`, the `Fps`
store, target `area`, output `scale`, and the clock reading
`state.clock.now()` (`now`).  The aggregates are read exactly as in lines
34-43, `amount` as in line 45, the window and bar series as in lines
46-85, and the drawn items as in lines 88-140. -/
def fps_ui (gpu : Option ℕ) (version : String) (git_hash : Option String)
    (egui_active : Bool) (fps : Fps) (area : (ℤ × ℤ) × (ℤ × ℤ)) (scale : ℚ)
    (now : ℕ) : RenderCall :=
  let mx := max_frametime fps
  let mn := min_frametime fps
  let avg := avg_frametime fps
  let avgFps := avg_fps fps
  let max_disp := max_time_to_display fps
  let min_disp := min_time_to_display fps
  let amount := amountOf avgFps
  let samples := recent fps.frames amount
  { items := fpsUiItems version git_hash egui_active gpu mx mn avg avgFps amount
      (bars_elements min_disp max_disp samples)
      (bars_render min_disp max_disp samples)
      (bars_screencopy min_disp max_disp samples)
      (bars_displayed min_disp max_disp samples)
    area := area
    scale := scale
    opacity := 4/5
    timestamp := now }

/-! ## Helper lemmas -/

theorem reverse_take_reverse {α : Type} (l : List α) (n : ℕ) :
    (l.reverse.take n).reverse = l.drop (l.length - n) := by
  rw [← List.rtake_eq_reverse_take_reverse]
  simp only [List.rtake]

theorem recent_eq_enum_drop (frames : List Frame) (n : ℕ) :
    recent frames n = (frames.drop (frames.length - n)).enum := by
  unfold recent
  rw [reverse_take_reverse]

theorem getLast?_drop_of_lt {α : Type} {l : List α} {k : ℕ} (h : k < l.length) :
    (l.drop k).getLast? = l.getLast? := by
  conv_rhs => rw [← List.take_append_drop k l]
  rw [List.getLast?_append]
  rcases h' : (l.drop k).getLast? with _ | a
  · rw [List.getLast?_eq_none_iff, List.drop_eq_nil_iff] at h'
    omega
  · simp

/-! ## Claims -/

/-- **C5.**  The window selection `recent` (the
`.iter().rev().take(amount).rev().enumerate()` chain of `src/debug.rs`
lines 49-56) yields exactly `min n (length frames)` samples, in
chronological order (it is the suffix of the frame history), each paired
with a zero-based index below `n`, and its last sample is the most recently
recorded frame. -/
theorem recent_yields_min_chronological (frames : List Frame) (n : ℕ) :
    (recent frames n).length = min n frames.length
    ∧ (recent frames n).map Prod.snd = frames.drop (frames.length - n)
    ∧ (recent frames n).map Prod.fst = List.range (min n frames.length)
    ∧ (∀ p ∈ recent frames n, p.1 < n)
    ∧ (frames ≠ [] → 0 < n →
        ((recent frames n).map Prod.snd).getLast? = frames.getLast?) := by
  rw [recent_eq_enum_drop]
  have hlen : (frames.drop (frames.length - n)).length = min n frames.length := by
    rw [List.length_drop]
    omega
  refine ⟨?_, ?_, ?_, ?_, ?_⟩
  · rw [List.enum_eq_enumFrom, List.enumFrom_length, hlen]
  · rw [List.enum_eq_enumFrom, List.enumFrom_map_snd]
  · rw [List.enum_eq_enumFrom, List.enumFrom_map_fst, hlen, List.range_eq_range']
  · intro p hp
    have h1 : p.1 ∈ (frames.drop (frames.length - n)).enum.map Prod.fst :=
      List.mem_map_of_mem Prod.fst hp
    rw [List.enum_eq_enumFrom, List.enumFrom_map_fst, hlen, ← List.range_eq_range',
      List.mem_range] at h1
    omega
  · intro hne hn
    rw [List.enum_eq_enumFrom, List.enumFrom_map_snd]
    apply getLast?_drop_of_lt
    have : 0 < frames.length := List.length_pos.mpr hne
    omega

/-- **C5 witness.** -/
theorem recent_yields_min_chronological_witness :
    ((recent [Frame.mk 1 2 none 3, Frame.mk 4 5 none 6] 1).map Prod.snd).getLast?
      = some (Frame.mk 4 5 none 6) := by
  have h := (recent_yields_min_chronological
    [Frame.mk 1 2 none 3, Frame.mk 4 5 none 6] 1).2.2.2.2 (by simp) (by omega)
  rw [h]
  rfl

/-- **C4.**  `amount = round(avg_fps) * 2` (`src/debug.rs` line 45, for the
nonnegative `avg_fps` values the store produces), `amount = 120` for
`avg_fps = 60`, and for the empty store `avg_fps = 0`, `amount = 0`, and
the chart input is the empty window with all four bar series empty. -/
theorem amount_round_avg_fps_times_two :
    (∀ q : ℚ, 0 ≤ q → (amountOf q : ℤ) = rustRound q * 2)
    ∧ amountOf 60 = 120
    ∧ amountOf 0 = 0
    ∧ avg_fps ⟨[]⟩ = 0
    ∧ recent (Fps.mk []).frames (amountOf (avg_fps ⟨[]⟩)) = []
    ∧ (∀ minD maxD : ℚ,
        bars_elements minD maxD (recent [] (amountOf 0)) = []
        ∧ bars_render minD maxD (recent [] (amountOf 0)) = []
        ∧ bars_screencopy minD maxD (recent [] (amountOf 0)) = []
        ∧ bars_displayed minD maxD (recent [] (amountOf 0)) = []) := by
  refine ⟨?_, ?_, ?_, ?_, ?_, ?_⟩
  · intro q hq
    unfold amountOf
    have h0 : 0 ≤ rustRound q := rustRound_nonneg hq
    push_cast [Int.toNat_of_nonneg h0]
    ring
  · norm_num [amountOf, rustRound]; omega
  · norm_num [amountOf, rustRound]
  · simp [avg_fps, avg_frametime]
  · simp [recent, amountOf, rustRound]
  · intro minD maxD
    refine ⟨?_, ?_, ?_, ?_⟩ <;>
      simp [bars_elements, bars_render, bars_screencopy, bars_displayed,
        barRows, recent]

/-- **C4 witness.** -/
theorem amount_round_avg_fps_times_two_witness :
    (amountOf 60 : ℤ) = rustRound 60 * 2 :=
  amount_round_avg_fps_times_two.1 60 (by norm_num)

/-- **C1 counterexample.**  The claim's formula
`round((v - min_disp) / (max_disp - min_disp) * 255)` disagrees with the
code for a sample value below `min_disp` (which elements / render /
screencopy values routinely are, the bounds being taken over displayed
durations only): at `v = 0`, `min_disp = 10ms`, `max_disp = 30ms` the
formula gives `round(-127.5) = -128` while the code's saturating `as u8`
cast yields `0`. -/
theorem normalize_formula_counterexample :
    ¬ ((normalize 0 (1/100) (3/100) : ℤ)
        = rustRound ((0 - 1/100) / (3/100 - 1/100) * 255)) := by
  norm_num [normalize, rustRound, u8sat, ceil_as_floor]

/-- **C1 (amended).**  For every sample value `v` *within the display-time
bounds* `min_disp ≤ v ≤ max_disp` (with `min_disp < max_disp`) the
normalization equals `round((v - min_disp) / (max_disp - min_disp) * 255)`;
and in the three-frame scenario (displayed durations 10ms, 20ms, 30ms) the
bounds are 10ms and 30ms and the 20ms sample normalizes to 128. -/
theorem normalize_formula_in_range :
    (∀ v minD maxD : ℚ, minD < maxD → minD ≤ v → v ≤ maxD →
      (normalize v minD maxD : ℤ) = rustRound ((v - minD) / (maxD - minD) * 255))
    ∧ min_time_to_display
        ⟨[⟨0, 0, none, 1/100⟩, ⟨0, 0, none, 1/50⟩, ⟨0, 0, none, 3/100⟩]⟩ = 1/100
    ∧ max_time_to_display
        ⟨[⟨0, 0, none, 1/100⟩, ⟨0, 0, none, 1/50⟩, ⟨0, 0, none, 3/100⟩]⟩ = 3/100
    ∧ normalize (1/50) (1/100) (3/100) = 128 := by
  refine ⟨?_, ?_, ?_, ?_⟩
  · intro v minD maxD h1 h2 h3
    have hne : maxD ≠ minD := ne_of_gt h1
    unfold normalize
    rw [if_neg hne]
    have hs0 : 0 ≤ (v - minD) / (maxD - minD) * 255 := by
      apply mul_nonneg _ (by norm_num)
      exact div_nonneg (by linarith) (by linarith)
    have hs255 : (v - minD) / (maxD - minD) * 255 ≤ 255 := by
      have h4 : (v - minD) / (maxD - minD) ≤ 1 := by
        rw [div_le_one (by linarith)]
        linarith
      nlinarith
    exact u8sat_of_mem (rustRound_nonneg hs0)
      (rustRound_le_of_le (by exact_mod_cast hs255))
  · norm_num [min_time_to_display, List.min?, min_def]
  · norm_num [max_time_to_display, List.max?, max_def]
  · norm_num [normalize, rustRound, u8sat, ceil_as_floor]; omega

/-- **C1 witness.** -/
theorem normalize_formula_in_range_witness :
    (normalize (1/50) (1/100) (3/100) : ℤ)
      = rustRound ((1/50 - 1/100) / (3/100 - 1/100) * 255) :=
  normalize_formula_in_range.1 (1/50) (1/100) (3/100)
    (by norm_num) (by norm_num) (by norm_num)

/-- **C2 counterexample.**  With `max_disp = min_disp = 10ms` the code does
*not* map every sample value to one fallback constant: a 20ms value (where
the `f64` division yields `+∞`) normalizes to 255 while the 10ms value
(where it yields NaN) normalizes to 0. -/
theorem normalize_degenerate_counterexample :
    normalize (1/50) (1/100) (1/100) = 255
    ∧ normalize (1/100) (1/100) (1/100) = 0 := by
  constructor <;> norm_num [normalize]

/-- **C2 (amended).**  When `max_disp = min_disp` the normalization never
panics and never propagates NaN or infinity: the saturating cast yields the
defined byte `0` for every value `≤ min_disp` (including the NaN case
`v = min_disp`) and `255` for every value `> min_disp`.  In the
single-frame scenario both display-time bounds equal the frame's displayed
duration and normalizing that duration returns the fallback `0`. -/
theorem normalize_degenerate_saturates :
    (∀ v m : ℚ, (v ≤ m → normalize v m m = 0) ∧ (m < v → normalize v m m = 255))
    ∧ (∀ f : Frame,
        min_time_to_display ⟨[f]⟩ = f.duration_displayed
        ∧ max_time_to_display ⟨[f]⟩ = f.duration_displayed
        ∧ normalize f.duration_displayed (min_time_to_display ⟨[f]⟩)
            (max_time_to_display ⟨[f]⟩) = 0) := by
  constructor
  · intro v m
    refine ⟨fun h => ?_, fun h => ?_⟩
    · simp only [normalize, if_pos rfl, if_true, if_neg (not_lt.mpr h)]
    · simp only [normalize, if_pos rfl, if_true, if_pos h]
  · intro f
    refine ⟨?_, ?_, ?_⟩
    · simp [min_time_to_display, List.min?]
    · simp [max_time_to_display, List.max?]
    · simp [min_time_to_display, max_time_to_display, List.min?, List.max?,
        normalize]

/-- **C2 witness.** -/
theorem normalize_degenerate_saturates_witness :
    normalize (1/200) (1/100) (1/100) = 0
    ∧ normalize (3/100) (1/100) (1/100) = 255 :=
  ⟨(normalize_degenerate_saturates.1 (1/200) (1/100)).1 (by norm_num),
   (normalize_degenerate_saturates.1 (3/100) (1/100)).2 (by norm_num)⟩

/-- **C6.**  Normalization is monotonic on values within the display-time
bounds: `displayed_a < displayed_b` implies `norm_a ≤ norm_b`. -/
theorem normalize_monotone (a b minD maxD : ℚ)
    (h1 : minD ≤ a) (h2 : a < b) (h3 : b ≤ maxD) :
    normalize a minD maxD ≤ normalize b minD maxD :=
  normalize_mono_of_lt_max (le_of_lt h2) (by linarith)

/-- **C6 witness.** -/
theorem normalize_monotone_witness :
    normalize (1/100) (1/100) (3/100) ≤ normalize (1/50) (1/100) (3/100) :=
  normalize_monotone (1/100) (1/50) (1/100) (3/100)
    (by norm_num) (by norm_num) (by norm_num)

/-- **C7.**  For inputs within `[min_disp, max_disp]` (non-degenerate
bounds) the normalized result lies in `[0, 255]`. -/
theorem normalize_in_byte_range (v minD maxD : ℚ)
    (_h1 : minD < maxD) (_h2 : minD ≤ v) (_h3 : v ≤ maxD) :
    0 ≤ normalize v minD maxD ∧ normalize v minD maxD ≤ 255 :=
  ⟨Nat.zero_le _, normalize_le_255 v minD maxD⟩

/-- **C7 witness.** -/
theorem normalize_in_byte_range_witness :
    0 ≤ normalize (1/50) (1/100) (3/100)
    ∧ normalize (1/50) (1/100) (3/100) ≤ 255 :=
  normalize_in_byte_range (1/50) (1/100) (3/100)
    (by norm_num) (by norm_num) (by norm_num)

theorem barRows_value_le_255 {minD maxD : ℚ} {samples : List (ℕ × Frame)}
    {r : (Bar × Bar) × (Bar × Bar)} (hr : r ∈ barRows minD maxD samples) :
    r.1.1.value ≤ 255 ∧ r.1.2.value ≤ 255
    ∧ r.2.1.value ≤ 255 ∧ r.2.2.value ≤ 255 := by
  obtain ⟨⟨i, fr⟩, _, rfl⟩ := List.mem_map.mp hr
  exact ⟨normalize_le_255 _ _ _, normalize_le_255 _ _ _,
    normalize_le_255 _ _ _, normalize_le_255 _ _ _⟩

/-- **C9.**  The byte conversion saturates: values whose scaled result is
below 0 (and, when `max_disp = min_disp`, the values the `f64` pipeline
sends to `-∞` or NaN) come out as 0, values whose scaled result is above
255 (or sent to `+∞`) come out as 255, and every emitted bar value of all
four series lies in `[0, 255]` — even for out-of-range inputs such as
elements/render/screencopy durations below `min_disp`. -/
theorem normalize_saturating_cast (v minD maxD : ℚ) :
    normalize v minD maxD ≤ 255
    ∧ (maxD ≠ minD → (v - minD) / (maxD - minD) * 255 < 0 →
        normalize v minD maxD = 0)
    ∧ (maxD ≠ minD → 255 < (v - minD) / (maxD - minD) * 255 →
        normalize v minD maxD = 255)
    ∧ (maxD = minD → v ≤ minD → normalize v minD maxD = 0)
    ∧ (maxD = minD → minD < v → normalize v minD maxD = 255)
    ∧ (∀ samples : List (ℕ × Frame),
        ∀ b ∈ bars_elements minD maxD samples ++ bars_render minD maxD samples
          ++ bars_screencopy minD maxD samples
          ++ bars_displayed minD maxD samples,
        b.value ≤ 255) := by
  refine ⟨normalize_le_255 v minD maxD, ?_, ?_, ?_, ?_, ?_⟩
  · intro hne hneg
    unfold normalize
    rw [if_neg hne]
    exact u8sat_of_nonpos (rustRound_nonpos hneg)
  · intro hne h255
    unfold normalize
    rw [if_neg hne]
    exact u8sat_of_ge_255 (rustRound_ge_of_ge (by exact_mod_cast le_of_lt h255))
  · intro he hle
    simp only [normalize, if_pos he, if_neg (not_lt.mpr hle)]
  · intro he hlt
    simp only [normalize, if_pos he, if_pos hlt]
  · intro samples b hb
    simp only [List.mem_append, bars_elements, bars_render, bars_screencopy,
      bars_displayed, List.mem_map] at hb
    rcases hb with ((⟨r, hr, rfl⟩ | ⟨r, hr, rfl⟩) | ⟨r, hr, rfl⟩) | ⟨r, hr, rfl⟩
    · exact (barRows_value_le_255 hr).1
    · exact (barRows_value_le_255 hr).2.1
    · exact (barRows_value_le_255 hr).2.2.1
    · exact (barRows_value_le_255 hr).2.2.2

/-- **C9 witness.** -/
theorem normalize_saturating_cast_witness :
    normalize 0 (1/100) (3/100) = 0 :=
  (normalize_saturating_cast 0 (1/100) (3/100)).2.1 (by norm_num) (by norm_num)

theorem barRows_fill {minD maxD : ℚ} {samples : List (ℕ × Frame)}
    {r : (Bar × Bar) × (Bar × Bar)} (hr : r ∈ barRows minD maxD samples) :
    r.1.1.fill = ELEMENTS_COLOR ∧ r.1.2.fill = RENDER_COLOR
    ∧ r.2.1.fill = SCREENCOPY_COLOR ∧ r.2.2.fill = DISPLAY_COLOR := by
  obtain ⟨⟨i, fr⟩, _, rfl⟩ := List.mem_map.mp hr
  exact ⟨rfl, rfl, rfl, rfl⟩

/-- **C8.**  With the overlay active, the plot receives the four bar charts
in the fixed category order elements (bottom), render, screencopy,
displayed (top) — identified by their fill colors — and each chart's
vertical base offset at any x is the cumulative sum of the values of all
previous categories at that x; a sample whose screencopy duration is
absent contributes the timing value 0. -/
theorem fps_ui_stacked_chart (gpu : Option ℕ) (version : String)
    (git_hash : Option String) (fps : Fps) (area : (ℤ × ℤ) × (ℤ × ℤ))
    (scale : ℚ) (now : ℕ) :
    (let minD := min_time_to_display fps
     let maxD := max_time_to_display fps
     let samples := recent fps.frames (amountOf (avg_fps fps))
     let e := elements_chart (bars_elements minD maxD samples)
     let r := render_chart (bars_elements minD maxD samples)
       (bars_render minD maxD samples)
     let s := screencopy_chart (bars_elements minD maxD samples)
       (bars_render minD maxD samples) (bars_screencopy minD maxD samples)
     let d := display_chart (bars_elements minD maxD samples)
       (bars_render minD maxD samples) (bars_screencopy minD maxD samples)
       (bars_displayed minD maxD samples)
     UiItem.plot (amountOf (avg_fps fps)) [e, r, s, d]
        ∈ (fps_ui gpu version git_hash true fps area scale now).items
     ∧ (∀ x, e.baseAt x = 0)
     ∧ (∀ x, r.baseAt x = e.valueAt x)
     ∧ (∀ x, s.baseAt x = e.valueAt x + r.valueAt x)
     ∧ (∀ x, d.baseAt x = e.valueAt x + r.valueAt x + s.valueAt x)
     ∧ (∀ b ∈ e.bars, b.fill = ELEMENTS_COLOR)
     ∧ (∀ b ∈ r.bars, b.fill = RENDER_COLOR)
     ∧ (∀ b ∈ s.bars, b.fill = SCREENCOPY_COLOR)
     ∧ (∀ b ∈ d.bars, b.fill = DISPLAY_COLOR))
    ∧ (∀ fr : Frame, fr.duration_screencopy = none → screencopyVal fr = 0) := by
  constructor
  · refine ⟨?_, ?_, ?_, ?_, ?_, ?_, ?_, ?_, ?_⟩
    · simp [fps_ui, fpsUiItems]
    · intro x
      simp [elements_chart, BarChartM.baseAt]
    · intro x
      simp [render_chart, elements_chart, BarChartM.baseAt, BarChartM.valueAt,
        BarChartM.bars]
    · intro x
      simp [screencopy_chart, render_chart, elements_chart, BarChartM.baseAt,
        BarChartM.valueAt, BarChartM.bars]
    · intro x
      simp [display_chart, screencopy_chart, render_chart, elements_chart,
        BarChartM.baseAt, BarChartM.valueAt, BarChartM.bars]
      omega
    · intro b hb
      obtain ⟨r, hr, rfl⟩ := List.mem_map.mp hb
      exact (barRows_fill hr).1
    · intro b hb
      obtain ⟨r, hr, rfl⟩ := List.mem_map.mp hb
      exact (barRows_fill hr).2.1
    · intro b hb
      obtain ⟨r, hr, rfl⟩ := List.mem_map.mp hb
      exact (barRows_fill hr).2.2.1
    · intro b hb
      obtain ⟨r, hr, rfl⟩ := List.mem_map.mp hb
      exact (barRows_fill hr).2.2.2
  · intro fr h
    simp [screencopyVal, h]

/-- **C8 witness.** -/
theorem fps_ui_stacked_chart_witness :
    screencopyVal ⟨1, 2, none, 3⟩ = 0 :=
  (fps_ui_stacked_chart none "" none ⟨[]⟩ ((0, 0), (0, 0)) 1 0).2
    ⟨1, 2, none, 3⟩ rfl

/-- **C3 counterexample.**  With the overlay inactive the drawn output is
*not* only the hint label: the version heading (and, when present, the
build hash) is drawn unconditionally before the branch on
`state.egui.active` (`src/debug.rs` lines 92-98). -/
theorem fps_ui_inactive_counterexample :
    (fps_ui none "1.0.0" none false ⟨[]⟩ ((0, 0), (0, 0)) 1 0).items
      ≠ [UiItem.hintLabel] := by
  simp [fps_ui, fpsUiItems, gitHashShort]

/-- **C3 (amended).**  With `overlay_active = false` the drawn output does
not depend on the store at all (any two stores produce the same items),
equals exactly the version label, the optional build-hash label and the
hint label, and contains no chart (and hence no per-frame detail). -/
theorem fps_ui_inactive_noninterference (gpu : Option ℕ) (version : String)
    (git_hash : Option String) (s1 s2 : Fps) (area : (ℤ × ℤ) × (ℤ × ℤ))
    (scale : ℚ) (now : ℕ) :
    (fps_ui gpu version git_hash false s1 area scale now).items
      = (fps_ui gpu version git_hash false s2 area scale now).items
    ∧ (fps_ui gpu version git_hash false s1 area scale now).items
      = [UiItem.versionLabel version]
        ++ (gitHashShort git_hash).toList.map UiItem.hashLabel
        ++ [UiItem.hintLabel]
    ∧ (∀ it ∈ (fps_ui gpu version git_hash false s1 area scale now).items,
        ∀ (amt : ℕ) (charts : List BarChartM), it ≠ UiItem.plot amt charts) := by
  refine ⟨rfl, rfl, ?_⟩
  intro it hit amt charts
  simp only [fps_ui, fpsUiItems, Bool.not_false, if_pos, List.mem_append,
    List.mem_singleton, List.mem_map, Option.mem_toList] at hit
  rcases hit with (h | ⟨a, _, h⟩) | h <;> subst h <;> intro hcon <;> cases hcon

/-- **C3 witness.** -/
theorem fps_ui_inactive_noninterference_witness :
    UiItem.versionLabel "1.0.0" ≠ UiItem.plot 0 [] :=
  (fps_ui_inactive_noninterference none "1.0.0" none ⟨[]⟩ ⟨[]⟩
      ((0, 0), (0, 0)) 1 0).2.2
    (UiItem.versionLabel "1.0.0") (by simp [fps_ui, fpsUiItems, gitHashShort]) 0 []

/-- **C10.**  The composed texture is always rasterized with the constant
blend factor `0.8` (`src/debug.rs` line 145): opacity is not an input of
`fps_ui` and no input changes it. -/
theorem fps_ui_opacity_constant (gpu : Option ℕ) (version : String)
    (git_hash : Option String) (egui_active : Bool) (fps : Fps)
    (area : (ℤ × ℤ) × (ℤ × ℤ)) (scale : ℚ) (now : ℕ) :
    (fps_ui gpu version git_hash egui_active fps area scale now).opacity = 4/5 :=
  rfl

end CosmicComp
